import Mathlib

/-!
Verification development for the BWAIShotgun match orchestrator.

The definitions below are a shallow embedding of the Rust sources:
  - src/game_table/src/game_table.rs : shared status table layout and the
    lazily attaching reader
  - src/src/bwapi.rs : derived queries over the status table
  - src/src/botsetup.rs : bot binary classification and directory search
  - src/src/main.rs : match orchestration (launch ordering, polling with
    bounded retries, process supervision)
Machine integers (u32 process ids, keep-alive counters) are modelled as Nat;
no arithmetic is ever performed on them, only comparison with zero.
-/

/-- Record GameInstance from game_table.rs: one slot of the shared table,
with the owning server process id (0 meaning empty), the connected flag and
the keep-alive counter. -/
structure GameInstance where
  server_process_id : Nat
  is_connected : Bool
  last_keep_alive_time : Nat
deriving DecidableEq

/-- Record GameTable from game_table.rs: the shared table is an array of 8
GameInstance slots; the fixed length 8 is stated as a hypothesis where a
claim depends on it. -/
structure GameTable where
  game_instances : List GameInstance
deriving DecidableEq

/-- Environment of one call to the shared memory reader: whether opening the
well-known segment would succeed right now, and the current contents of the
region (what a raw read through an attached handle returns). -/
structure ShmemEnv where
  openOk : Bool
  region : GameTable
deriving DecidableEq

/-- State of game_table.rs GameTableAccess: the lazily cached shared memory
handle. Only the presence of the handle matters for control flow, so the
handle itself is modelled as Unit. -/
structure ReaderState where
  game_table : Option Unit
deriving DecidableEq

/-- Function get_game_table of game_table.rs GameTableAccess: if no handle is
cached, attempt to open the segment and cache the handle on success; then
read a value copy of the region through the cached handle, if any. Returns
the updated state and the snapshot. -/
def ReaderState.get_game_table (st : ReaderState) (env : ShmemEnv) :
    ReaderState × Option GameTable :=
  let st2 := if st.game_table.isNone then
      if env.openOk then { game_table := some () } else st
    else st
  (st2, st2.game_table.map fun _ => env.region)

/-- Function all_slots_filled of bwapi.rs GameTableAccess, applied to the
result of get_game_table: true when no slot has a non-zero server process id
while being disconnected; false when no table is available. -/
def all_slots_filled (t : Option GameTable) : Bool :=
  (t.map fun table =>
    !(table.game_instances.any fun it => it.server_process_id != 0 && !it.is_connected)).getD
    false

/-- Function has_free_slot of bwapi.rs GameTableAccess, applied to the result
of get_game_table: true when some slot has a non-zero server process id while
being disconnected; false when no table is available. -/
def has_free_slot (t : Option GameTable) : Bool :=
  (t.map fun table =>
    table.game_instances.any fun it => it.server_process_id != 0 && !it.is_connected).getD
    false

/-- Enum Binary of botsetup.rs: a bot artifact classified as a dynamic
module (dll), script archive (jar) or native executable (exe), carrying its
filesystem path. -/
inductive Binary where
  | dll (path : String)
  | jar (path : String)
  | exe (path : String)
deriving DecidableEq

/-- Characters after the last dot of a list, if any dot is present. -/
def afterLastDot : List Char → Option (List Char)
  | [] => none
  | c :: rest =>
    match afterLastDot rest with
    | some e => some e
    | none => if c = '.' then some rest else none

/-- Characters of the file name of a path: everything after the last slash
or backslash separator. -/
def fileNameChars (cs : List Char) : List Char :=
  ((cs.reverse.takeWhile fun c => !(c == '/' || c == '\\')).reverse)

/-- Extension of a path, following Path extension semantics of the Rust
standard library: the portion of the file name after its last dot, where a
leading dot of the file name does not start an extension. -/
def pathExtension (p : String) : Option (List Char) :=
  afterLastDot (fileNameChars p.toList).tail

/-- Function Binary.from_path of botsetup.rs: classify a path by its
ascii-lowercased extension into dll, jar or exe; any other extension is not
a bot binary. -/
def Binary.from_path (path : String) : Option Binary :=
  (pathExtension path).bind fun ext =>
    let ext := ext.map Char.toLower
    if ext = ['d', 'l', 'l'] then some (Binary.dll path)
    else if ext = ['j', 'a', 'r'] then some (Binary.jar path)
    else if ext = ['e', 'x', 'e'] then some (Binary.exe path)
    else none

/-- Error kinds of Binary.search in botsetup.rs: the bail with message Found
multiple binary candidates is the ambiguity error, the bail with message No
binary found is the not-found error. -/
inductive SearchError where
  | ambiguous
  | notFound
deriving DecidableEq

/-- Loop body of Binary.search of botsetup.rs: the running best candidate is
combined with each newly classified candidate exactly as the Rust match on
the pair (executable, detected_binary); the wildcard arm bails with the
ambiguity error, aborting the whole scan. -/
def searchLoop : Option Binary → List String → Except SearchError (Option Binary)
  | acc, [] => Except.ok acc
  | acc, f :: rest =>
    match Binary.from_path f with
    | none => searchLoop acc rest
    | some detected =>
      match acc, detected with
      | none, Binary.dll p => searchLoop (some (Binary.dll p)) rest
      | some (Binary.dll p), Binary.jar _ => searchLoop (some (Binary.dll p)) rest
      | none, Binary.jar p => searchLoop (some (Binary.jar p)) rest
      | none, Binary.exe p => searchLoop (some (Binary.exe p)) rest
      | some (Binary.dll _), Binary.exe p => searchLoop (some (Binary.exe p)) rest
      | some (Binary.jar _), Binary.exe p => searchLoop (some (Binary.exe p)) rest
      | _, _ => Except.error SearchError.ambiguous

/-- Function Binary.search of botsetup.rs: scan the directory entries in
discovery order, folding with searchLoop; no surviving candidate is the
not-found error. -/
def Binary.search (files : List String) : Except SearchError Binary :=
  match searchLoop none files with
  | Except.error e => Except.error e
  | Except.ok none => Except.error SearchError.notFound
  | Except.ok (some b) => Except.ok b

/-- Candidate-level reading of the searchLoop fold: the same combination of
the running best candidate with each classified candidate, over the list of
classified candidates in discovery order. -/
def candLoop : Option Binary → List Binary → Except SearchError (Option Binary)
  | acc, [] => Except.ok acc
  | acc, detected :: rest =>
    match acc, detected with
    | none, Binary.dll p => candLoop (some (Binary.dll p)) rest
    | some (Binary.dll p), Binary.jar _ => candLoop (some (Binary.dll p)) rest
    | none, Binary.jar p => candLoop (some (Binary.jar p)) rest
    | none, Binary.exe p => candLoop (some (Binary.exe p)) rest
    | some (Binary.dll _), Binary.exe p => candLoop (some (Binary.exe p)) rest
    | some (Binary.jar _), Binary.exe p => candLoop (some (Binary.exe p)) rest
    | _, _ => Except.error SearchError.ambiguous

/-- Final step of Binary.search on the surviving candidate: an error is
passed through, no survivor is the not-found error, a survivor wins. -/
def finishSearch : Except SearchError (Option Binary) → Except SearchError Binary
  | Except.error e => Except.error e
  | Except.ok none => Except.error SearchError.notFound
  | Except.ok (some b) => Except.ok b

/-- Specification-side resolver for the amended C2 claim, continued after a
leading DynamicModule: any run of ScriptArchives keeps the DynamicModule, a
single final NativeExecutable takes over, and anything else (a second
DynamicModule, or any candidate after the NativeExecutable) is
ambiguous. -/
def dllRun (d : String) : List Binary → Except SearchError Binary
  | [] => Except.ok (Binary.dll d)
  | [Binary.exe e] => Except.ok (Binary.exe e)
  | Binary.jar _ :: rest => dllRun d rest
  | _ => Except.error SearchError.ambiguous

/-- Specification-side resolver for the amended C2 claim, written from the
words of the amendment and to be compared with Binary.search from the
source: over the classified candidates in discovery order, an empty
sequence is not-found; a lone NativeExecutable, a lone ScriptArchive
followed by a final NativeExecutable, or a DynamicModule followed by any
run of ScriptArchives and a final NativeExecutable resolve to the
NativeExecutable; a DynamicModule followed by nothing but ScriptArchives
resolves to the DynamicModule; a lone ScriptArchive resolves to the
ScriptArchive; every other sequence is ambiguous. -/
def resolveSpec : List Binary → Except SearchError Binary
  | [] => Except.error SearchError.notFound
  | [Binary.exe e] => Except.ok (Binary.exe e)
  | [Binary.jar j] => Except.ok (Binary.jar j)
  | [Binary.jar _, Binary.exe e] => Except.ok (Binary.exe e)
  | Binary.dll d :: rest => dllRun d rest
  | _ => Except.error SearchError.ambiguous

deriving instance DecidableEq for Except

/-- Record PreparedBot of main.rs, restricted to the fields the orchestration
claims depend on: the display name and the resolved binary. -/
structure PreparedBot where
  name : String
  binary : Binary
deriving DecidableEq

/-- Sort key closure of the prepared-bots sort in main: engine-hosted dll
bots get key 1, separately spawned jar and exe bots get key 0. -/
def launchKey (b : Binary) : Nat :=
  match b with
  | Binary.dll _ => 1
  | _ => 0

/-- Predicate from the bot-process match in main: a dll runs inside the
engine process, a jar or exe is spawned as a separate process. -/
def spawnsSeparateProcess : Binary → Bool
  | Binary.dll _ => false
  | _ => true

/-- The sort of prepared_bots in main: a stable ascending sort by launchKey,
modelled by insertion sort, which is stable and ascending like the Rust
sort_by_key. -/
def sortBots (bots : List PreparedBot) : List PreparedBot :=
  List.insertionSort (fun a b => launchKey a.binary ≤ launchKey b.binary) bots

/-- Host-role flags in iteration order: main starts with host equal to the
negation of human_host and unconditionally demotes it to false after each
loop iteration. -/
def hostFlagsGo : Bool → List PreparedBot → List Bool
  | _, [] => []
  | host, _ :: rest => host :: hostFlagsGo false rest

/-- Host-role flags assigned across a match: the loop in main runs over the
sorted bot list starting with host equal to not human_host. -/
def assignedHostFlags (human_host : Bool) (bots : List PreparedBot) : List Bool :=
  hostFlagsGo (!human_host) (sortBots bots)

/-- Result type of one poll attempt, mirroring OperationResult of the retry
crate used in main. -/
inductive OperationResult (α ε : Type) where
  | ok (a : α)
  | retry (e : ε)
  | err (e : ε)
deriving DecidableEq

/-- Number of additional delays of each polling loop in main:
Fixed delay iterator taken 100 times, so 101 attempts in total. -/
def pollRetries : Nat := 100

/-- Fixed sleep between attempts in milliseconds; time is abstracted to one
tick per attempt, so this constant only documents the interval. -/
def pollIntervalMillis : Nat := 100

/-- Function retry of the retry crate as used in main: run the operation,
return on ok or err, and on retry consume one delay and run again; when the
delay budget is exhausted the last retry message becomes the error. Each
attempt consumes one tick of the environment clock; the final clock value is
returned alongside the result. -/
def retryFixed {α ε : Type} (op : Nat → OperationResult α ε) : Nat → Nat → Except ε α × Nat
  | t, 0 =>
    (match op t with
      | OperationResult.ok a => Except.ok a
      | OperationResult.retry e => Except.error e
      | OperationResult.err e => Except.error e, t + 1)
  | t, r + 1 =>
    match op t with
    | OperationResult.ok a => (Except.ok a, t + 1)
    | OperationResult.err e => (Except.error e, t + 1)
    | OperationResult.retry _ => retryFixed op (t + 1) r

/-- Environment observed by the polling loops: the status table snapshot the
reader would return at each tick, and whether try_wait still reports the
engine process and the bot process as running at each tick. -/
structure PollEnv where
  table : Nat → Option GameTable
  engineRunning : Nat → Bool
  botRunning : Nat → Bool

/-- Body of the readiness wait in main: succeed when the status table has a
free slot, otherwise ask for a retry. -/
def readinessOp (env : PollEnv) (t : Nat) : OperationResult Unit String :=
  if has_free_slot (env.table t) then OperationResult.ok ()
  else OperationResult.retry "Server process not ready"

/-- Body of the connection wait in main: compute all_slots_filled, then fail
fatally if the engine process exited, then fail fatally if the bot process
exited, then succeed if all slots are filled, otherwise retry. -/
def connectionOp (env : PollEnv) (t : Nat) : OperationResult Unit String :=
  let slots_filled := all_slots_filled (env.table t)
  if !(env.engineRunning t) then OperationResult.err "BWAPI process died"
  else if !(env.botRunning t) then OperationResult.err "Bot process died"
  else if slots_filled then OperationResult.ok ()
  else OperationResult.retry "Bot client executable did not connect to BWAPI server (did you try to run a human hosted game without hosting it?)"

/-- Observable launch events of the per-bot setup in main: spawning the
engine-side process and spawning the separate bot process. -/
inductive Event where
  | spawnEngine (name : String)
  | spawnBot (name : String)
deriving DecidableEq

/-- Setup of one bot in the loop of main: spawn the engine process; for an
engine-hosted dll there is no separate process and no polling; for a jar or
exe, run the readiness wait, then spawn the bot process, then run the
connection wait. Errors abort with the trace produced so far. -/
def runBot (env : PollEnv) (bot : PreparedBot) (t : Nat) :
    List Event × Except String Unit × Nat :=
  match bot.binary with
  | Binary.dll _ => ([Event.spawnEngine bot.name], Except.ok (), t)
  | _ =>
    match retryFixed (readinessOp env) t pollRetries with
    | (Except.error e, t1) => ([Event.spawnEngine bot.name], Except.error e, t1)
    | (Except.ok _, t1) =>
      match retryFixed (connectionOp env) t1 pollRetries with
      | (Except.error e, t2) =>
        ([Event.spawnEngine bot.name, Event.spawnBot bot.name], Except.error e, t2)
      | (Except.ok _, t2) =>
        ([Event.spawnEngine bot.name, Event.spawnBot bot.name], Except.ok (), t2)

/-- Sequential loop over the sorted bots in main: bot i+1 is started only
after the setup of bot i has fully resolved; any error aborts the match
setup. -/
def runMatchGo (env : PollEnv) : List PreparedBot → Nat → List Event × Except String Unit
  | [], _ => ([], Except.ok ())
  | b :: rest, t =>
    match runBot env b t with
    | (evs, Except.error e, _) => (evs, Except.error e)
    | (evs, Except.ok _, t1) =>
      match runMatchGo env rest t1 with
      | (evs2, res) => (evs ++ evs2, res)

/-- Match setup of main: sort the prepared bots by launchKey, then run the
per-bot setup sequentially from tick 0. -/
def runMatch (env : PollEnv) (bots : List PreparedBot) :
    List Event × Except String Unit :=
  runMatchGo env (sortBots bots) 0

/-- Concrete engine-hosted bot A for the two-bot scenario of C1. -/
def botHostedA : PreparedBot := ⟨"A", Binary.dll "bwapi-data/AI/a.dll"⟩

/-- Concrete separate-executable bot B for the two-bot scenario of C1. -/
def botClientB : PreparedBot := ⟨"B", Binary.exe "bwapi-data/AI/b.exe"⟩

/-- Concrete polling environment for the two-bot scenario of C1: at tick 0
the table shows one occupied disconnected slot, afterwards the slot is
connected, and both processes keep running. -/
def cexEnv : PollEnv :=
  ⟨fun t => if t = 0 then some ⟨⟨1, false, 0⟩ :: List.replicate 7 ⟨0, false, 0⟩⟩
    else some ⟨⟨1, true, 0⟩ :: List.replicate 7 ⟨0, false, 0⟩⟩,
   fun _ => true, fun _ => true⟩

/-- Record BotProcess of main.rs: the engine-side child process (identified
by a process id) paired with an optional separate bot child (only its
presence matters for the supervision claims). -/
structure BotProcess where
  bwheadless : Nat
  bot : Bool
deriving DecidableEq

/-- Observable actions of the supervisor loop in main: forcibly killing a
paired bot process and reporting the remaining instance count. -/
inductive SupEvent where
  | killBot (id : Nat)
  | report (remaining : Nat)
deriving DecidableEq

/-- Predicate selecting the report events of a supervisor pass. -/
def isReport : SupEvent → Bool
  | SupEvent.report _ => true
  | _ => false

/-- Vec swap_remove of the Rust standard library: remove index i by moving
the last element into its place. -/
def swapRemove {α : Type} (l : List α) (i : Nat) : List α :=
  match l.getLast? with
  | none => l
  | some last => (l.set i last).dropLast

/-- One pass of the supervisor loop in main: visit indices i-1 down to 0 of
the current instance vector; when try_wait shows the engine process of the
instance at the index has exited, kill its paired bot process if present,
swap_remove the instance and report the new remaining count. -/
def sweepFrom (exited : Nat → Bool) : List BotProcess → Nat →
    List BotProcess × List SupEvent
  | insts, 0 => (insts, [])
  | insts, i + 1 =>
    match insts[i]? with
    | none => sweepFrom exited insts i
    | some inst =>
      if exited inst.bwheadless then
        (
          (sweepFrom exited (swapRemove insts i) i).1,
          (if inst.bot then [SupEvent.killBot inst.bwheadless] else []) ++
            SupEvent.report (swapRemove insts i).length ::
              (sweepFrom exited (swapRemove insts i) i).2)
      else sweepFrom exited insts i

/-- Full pass over the instance vector, starting from its length as the
Rust loop does. -/
def supervisorPass (exited : Nat → Bool) (insts : List BotProcess) :
    List BotProcess × List SupEvent :=
  sweepFrom exited insts insts.length

/-- The supervisor loop of main: while the instance set is nonempty, run one
pass per tick; returns the accumulated events when the set is empty, or
nothing when the fuel runs out first. The loop itself has no bound, so fuel
only serves to express that the loop cannot return while a host process
never exits. -/
def superRun (exited : Nat → Nat → Bool) :
    Nat → List BotProcess → Nat → Option (List SupEvent)
  | _, [], _ => some []
  | 0, _ :: _, _ => none
  | fuel + 1, a :: rest, t =>
    match superRun exited fuel (supervisorPass (exited t) (a :: rest)).1 (t + 1) with
    | none => none
    | some evs2 => some ((supervisorPass (exited t) (a :: rest)).2 ++ evs2)

/-- C4: for every status table snapshot of 8 slots, has_free_slot is true iff
some slot has a non-zero owning process id and is not connected, and
all_slots_filled is true iff every slot with a non-zero owning process id is
connected (vacuously true when no slot has a non-zero id). -/
theorem c4_slot_queries (t : GameTable) (h8 : t.game_instances.length = 8) :
    (has_free_slot (some t) = true ↔
      ∃ inst ∈ t.game_instances,
        inst.server_process_id ≠ 0 ∧ inst.is_connected = false)
    ∧ (all_slots_filled (some t) = true ↔
      ∀ inst ∈ t.game_instances,
        inst.server_process_id ≠ 0 → inst.is_connected = true) := by
  constructor
  · show (t.game_instances.any fun it =>
        it.server_process_id != 0 && !it.is_connected) = true ↔ _
    simp
  · show (!(t.game_instances.any fun it =>
        it.server_process_id != 0 && !it.is_connected)) = true ↔ _
    simp

/-- Witness for C4 at a concrete 8-slot table with one connected occupied
slot, one disconnected occupied slot, and six empty slots. -/
theorem c4_slot_queries_witness :
    (has_free_slot (some (GameTable.mk
      (⟨7, true, 0⟩ :: ⟨9, false, 0⟩ :: List.replicate 6 ⟨0, false, 0⟩))) = true ↔
      ∃ inst ∈ (GameTable.mk
        (⟨7, true, 0⟩ :: ⟨9, false, 0⟩ :: List.replicate 6 ⟨0, false, 0⟩)).game_instances,
        inst.server_process_id ≠ 0 ∧ inst.is_connected = false)
    ∧ (all_slots_filled (some (GameTable.mk
      (⟨7, true, 0⟩ :: ⟨9, false, 0⟩ :: List.replicate 6 ⟨0, false, 0⟩))) = true ↔
      ∀ inst ∈ (GameTable.mk
        (⟨7, true, 0⟩ :: ⟨9, false, 0⟩ :: List.replicate 6 ⟨0, false, 0⟩)).game_instances,
        inst.server_process_id ≠ 0 → inst.is_connected = true) :=
  c4_slot_queries
    (GameTable.mk (⟨7, true, 0⟩ :: ⟨9, false, 0⟩ :: List.replicate 6 ⟨0, false, 0⟩))
    (by decide)

/-- C10: whenever a snapshot is obtained, all_slots_filled is the exact
boolean negation of has_free_slot; when no snapshot can be obtained both
queries return false, so all_slots_filled is false rather than vacuously
true while the region is absent. -/
theorem c10_query_negation :
    (∀ t : GameTable, all_slots_filled (some t) = !has_free_slot (some t))
    ∧ all_slots_filled none = false ∧ has_free_slot none = false := by
  refine ⟨fun t => ?_, rfl, rfl⟩
  simp [all_slots_filled, has_free_slot]

/-- C5: while the shared region is absent the reader returns no table and
leaves its state unchanged, so attachment is attempted again on the next
call; a successful attachment caches the handle and returns the region; once
a handle is cached every later call reuses it without re-attachment and
returns a fresh value copy of the current region contents. -/
theorem c5_reader_attachment (st : ReaderState) (env : ShmemEnv) :
    (st.game_table = none → env.openOk = false →
      st.get_game_table env = (st, none))
    ∧ (st.game_table = none → env.openOk = true →
      st.get_game_table env = (⟨some ()⟩, some env.region))
    ∧ (∀ h, st.game_table = some h →
      st.get_game_table env = (st, some env.region)) := by
  refine ⟨fun hn ho => ?_, fun hn ho => ?_, fun h hs => ?_⟩
  · simp [ReaderState.get_game_table, hn, ho]
  · simp [ReaderState.get_game_table, hn, ho]
  · simp [ReaderState.get_game_table, hs]

/-- Witness for C5: one absent-region call, one attaching call and one
cached-handle call at concrete states. -/
theorem c5_reader_attachment_witness :
    (ReaderState.mk none).get_game_table ⟨false, ⟨[]⟩⟩ = (⟨none⟩, none)
    ∧ (ReaderState.mk none).get_game_table ⟨true, ⟨[]⟩⟩ = (⟨some ()⟩, some ⟨[]⟩)
    ∧ (ReaderState.mk (some ())).get_game_table ⟨false, ⟨[]⟩⟩ =
      (⟨some ()⟩, some ⟨[]⟩) :=
  ⟨(c5_reader_attachment ⟨none⟩ ⟨false, ⟨[]⟩⟩).1 rfl rfl,
   (c5_reader_attachment ⟨none⟩ ⟨true, ⟨[]⟩⟩).2.1 rfl rfl,
   (c5_reader_attachment ⟨some ()⟩ ⟨false, ⟨[]⟩⟩).2.2 () rfl⟩

/-- Helper: searchLoop only consumes the classification of each entry, so it
factors through filterMap of from_path. -/
theorem searchLoop_eq_candLoop (files : List String) : ∀ acc : Option Binary,
    searchLoop acc files = candLoop acc (files.filterMap Binary.from_path) := by
  induction files with
  | nil => intro acc; rfl
  | cons f rest ih =>
    intro acc
    rcases hf : Binary.from_path f with _ | detected
    · simp only [searchLoop, hf, List.filterMap_cons, ih]
    · simp only [searchLoop, hf, List.filterMap_cons]
      rcases acc with _ | b
      · rcases detected with p | p | p <;> simp only [candLoop, ih]
      · rcases b with p | p | p <;> rcases detected with q | q | q <;>
          simp only [candLoop, ih]

/-- Helper: the result of Binary.search expressed through the candidate
list. -/
theorem search_eq_candLoop (files : List String) :
    Binary.search files =
      finishSearch (candLoop none (files.filterMap Binary.from_path)) := by
  unfold Binary.search
  rw [searchLoop_eq_candLoop]
  rcases candLoop none (files.filterMap Binary.from_path) with e | _ | b <;> rfl

/-- C2 counterexample: both laws of the claim fail on discovery order. The
claim says a directory with one NativeExecutable and a DynamicModule
resolves to the NativeExecutable regardless of discovery order, but when
the exe is discovered first and the dll second the wildcard arm of the fold
bails with the ambiguity error; and the claim says one DynamicModule plus
one ScriptArchive resolve to the DynamicModule, but when the jar is
discovered first the pair (some jar, dll) also hits the wildcard arm. -/
theorem c2_counterexample :
    (Binary.search ["a.exe", "b.dll"] = Except.error SearchError.ambiguous
      ∧ Binary.search ["a.exe", "b.dll"] ≠ Except.ok (Binary.exe "a.exe"))
    ∧ (Binary.search ["b.jar", "a.dll"] = Except.error SearchError.ambiguous
      ∧ Binary.search ["b.jar", "a.dll"] ≠ Except.ok (Binary.dll "a.dll")) := by
  decide

/-- Helper: once the surviving candidate is a DynamicModule, the rest of the
scan behaves exactly as the specification-side dllRun: ScriptArchives are
absorbed, a single final NativeExecutable wins, anything else is
ambiguous. -/
theorem finishSearch_candLoop_dll (d : String) : ∀ rest : List Binary,
    finishSearch (candLoop (some (Binary.dll d)) rest) = dllRun d rest := by
  intro rest
  induction rest with
  | nil => rfl
  | cons c rest2 ih =>
    rcases c with p | p | p
    · rfl
    · show finishSearch (candLoop (some (Binary.dll d)) rest2) = dllRun d rest2
      exact ih
    · rcases rest2 with _ | ⟨x, xs⟩
      · rfl
      · rcases x with q | q | q <;> rfl

/-- C2 amended, as a complete characterization: for every directory scan
the result of the resolver is exactly resolveSpec applied to the classified
candidates in discovery order. In particular the scan succeeds exactly for
a lone ScriptArchive, a DynamicModule followed by any run of
ScriptArchives, or a NativeExecutable discovered last after such a prefix,
resolving to the strongest candidate present under NativeExecutable over
DynamicModule over ScriptArchive; any candidate discovered after a
NativeExecutable, a DynamicModule discovered after a ScriptArchive, a
second DynamicModule, and a second ScriptArchive without a leading
DynamicModule all make the scan ambiguous; the empty sequence is
not-found. -/
theorem c2_resolver_precedence (files : List String) :
    Binary.search files = resolveSpec (files.filterMap Binary.from_path) := by
  rw [search_eq_candLoop]
  generalize files.filterMap Binary.from_path = cs
  rcases cs with _ | ⟨a, rest⟩
  · rfl
  · rcases a with p | p | p
    · exact finishSearch_candLoop_dll p rest
    · rcases rest with _ | ⟨c, rest2⟩
      · rfl
      · rcases c with q | q | q
        · rfl
        · rfl
        · rcases rest2 with _ | ⟨x, xs⟩
          · rfl
          · rcases x with r | r | r <;> rfl
    · rcases rest with _ | ⟨c, rest2⟩
      · rfl
      · rcases c with q | q | q <;> rfl

/-- C6: the resolver fails with the not-found error when the directory has
zero classifiable files, and with the ambiguity error when incremental
precedence cannot resolve a single winner; in particular two exe files are
rejected as ambiguous. -/
theorem c6_resolver_errors :
    (∀ files, files.filterMap Binary.from_path = [] →
      Binary.search files = Except.error SearchError.notFound)
    ∧ (∀ files a b,
      files.filterMap Binary.from_path = [Binary.exe a, Binary.exe b] →
      Binary.search files = Except.error SearchError.ambiguous) := by
  refine ⟨fun files h => ?_, fun files a b h => ?_⟩ <;>
    (rw [search_eq_candLoop, h]; rfl)

/-- Witness for C6: a directory with only an unclassifiable file, and a
directory with two exe files. -/
theorem c6_resolver_errors_witness :
    Binary.search ["readme.txt"] = Except.error SearchError.notFound
    ∧ Binary.search ["a.exe", "b.exe"] = Except.error SearchError.ambiguous :=
  ⟨c6_resolver_errors.1 ["readme.txt"] (by decide),
   c6_resolver_errors.2 ["a.exe", "b.exe"] "a.exe" "b.exe" (by decide)⟩

/-- Helper: when every attempt in the window asks for a retry with the same
message, the bounded retry exhausts its budget and fails with that
message. -/
theorem retryFixed_all_retry {α ε : Type} (op : Nat → OperationResult α ε)
    (e : ε) : ∀ r t, (∀ s, t ≤ s → s ≤ t + r → op s = OperationResult.retry e) →
    retryFixed op t r = (Except.error e, t + r + 1) := by
  intro r
  induction r with
  | zero =>
    intro t h
    have h0 := h t le_rfl (Nat.le_refl t)
    simp [retryFixed, h0]
  | succ r ih =>
    intro t h
    have h0 := h t le_rfl (Nat.le_add_right t (r + 1))
    have hrec := ih (t + 1) fun s hs1 hs2 => h s (by omega) (by omega)
    simp only [retryFixed, h0, hrec]
    have : t + 1 + r + 1 = t + (r + 1) + 1 := by omega
    rw [this]

/-- C1 counterexample: for the match with engine-hosted bot A and separate
executable bot B, the sort in main gives dll bots the larger key, so B is
fully launched first and the engine process of A is spawned last; the claim
that the engine of A is spawned and polled before the process of B is
spawned fails on this trace. -/
theorem c1_counterexample :
    (runMatch cexEnv [botHostedA, botClientB]).1 =
      [Event.spawnEngine "B", Event.spawnBot "B", Event.spawnEngine "A"]
    ∧ ¬ ((runMatch cexEnv [botHostedA, botClientB]).1.indexOf
        (Event.spawnEngine "A")
        < (runMatch cexEnv [botHostedA, botClientB]).1.indexOf
        (Event.spawnBot "B")) := by
  decide

/-- C1 amended: the orchestrator launches separately-spawned bots before
engine-hosted dll bots: in the sorted iteration order, once a dll bot
appears every later bot is also a dll bot (launchKey 1 means dll); in the
two-bot scenario the process of B is spawned, and its polling completed,
before the engine process of A is spawned. -/
theorem c1_launch_order :
    (∀ (bots : List PreparedBot) (i j : Nat) (hij : i ≤ j)
      (hj : j < (sortBots bots).length),
      launchKey ((sortBots bots).get ⟨i, Nat.lt_of_le_of_lt hij hj⟩).binary = 1 →
      launchKey ((sortBots bots).get ⟨j, hj⟩).binary = 1)
    ∧ ((runMatch cexEnv [botHostedA, botClientB]).1.indexOf
        (Event.spawnBot "B")
        < (runMatch cexEnv [botHostedA, botClientB]).1.indexOf
        (Event.spawnEngine "A")) := by
  constructor
  · intro bots i j hij hj hkey
    rcases Nat.eq_or_lt_of_le hij with rfl | hlt
    · exact hkey
    · haveI : IsTotal PreparedBot
          (fun a b => launchKey a.binary ≤ launchKey b.binary) :=
        ⟨fun a b => Nat.le_total _ _⟩
      haveI : IsTrans PreparedBot
          (fun a b => launchKey a.binary ≤ launchKey b.binary) :=
        ⟨fun a b c => Nat.le_trans⟩
      have hs : List.Sorted (fun a b => launchKey a.binary ≤ launchKey b.binary)
          (sortBots bots) :=
        List.sorted_insertionSort
          (fun a b : PreparedBot => launchKey a.binary ≤ launchKey b.binary) bots
      have hp := List.pairwise_iff_get.mp hs
        ⟨i, Nat.lt_of_le_of_lt hij hj⟩ ⟨j, hj⟩ hlt
      have hle : launchKey ((sortBots bots).get ⟨j, hj⟩).binary ≤ 1 := by
        rcases hb : ((sortBots bots).get ⟨j, hj⟩).binary with p | p | p <;>
          simp [launchKey]
      omega
  · decide

/-- Witness for C1 amended: in the two-bot scenario, position 1 of the
sorted order (its last bot) holds the dll bot. -/
theorem c1_launch_order_witness :
    launchKey ((sortBots [botHostedA, botClientB]).get ⟨1, by decide⟩).binary = 1 :=
  c1_launch_order.1 [botHostedA, botClientB] 1 1 (Nat.le_refl 1) (by decide)
    (by decide)

/-- Helper: once demoted, the host flag stays false for the rest of the
iteration. -/
theorem hostFlagsGo_false (l : List PreparedBot) :
    hostFlagsGo false l = List.replicate l.length false := by
  induction l with
  | nil => rfl
  | cons x rest ih => simp [hostFlagsGo, ih, List.replicate_succ]

/-- Helper: a replicate of false contains no true entry. -/
theorem count_true_replicate_false (n : Nat) :
    (List.replicate n false).count true = 0 := by
  induction n with
  | zero => rfl
  | succ n ih => simp [List.replicate_succ, List.count_cons, ih]

/-- C9: across a match setup at most one bot is given the host role; with an
external human host every bot gets the join role; otherwise exactly the
first bot of the iteration order is host and the flag is demoted to false
for every later launch plan. -/
theorem c9_single_host (human_host : Bool) (bots : List PreparedBot) :
    ((assignedHostFlags human_host bots).count true ≤ 1)
    ∧ (human_host = true →
      assignedHostFlags human_host bots = List.replicate bots.length false)
    ∧ (human_host = false → bots.length ≠ 0 →
      assignedHostFlags human_host bots =
        true :: List.replicate (bots.length - 1) false) := by
  have hlen : (sortBots bots).length = bots.length :=
    List.length_insertionSort _ _
  have htrue : assignedHostFlags true bots = List.replicate bots.length false := by
    show hostFlagsGo (!true) (sortBots bots) = _
    rw [show (!true) = false from rfl, hostFlagsGo_false, hlen]
  have hfalse : bots.length ≠ 0 → assignedHostFlags false bots =
      true :: List.replicate (bots.length - 1) false := by
    intro hne
    show hostFlagsGo (!false) (sortBots bots) = _
    rcases hsort : sortBots bots with _ | ⟨x, rest⟩
    · exact absurd (by rw [← hlen, hsort]; rfl) (Ne.symm hne)
    · have hr : rest.length = bots.length - 1 := by
        have : rest.length + 1 = bots.length := by rw [← hlen, hsort]; rfl
        omega
      rw [show (!false) = true from rfl]
      show true :: hostFlagsGo false rest = _
      rw [hostFlagsGo_false, hr]
  refine ⟨?_, fun h => by rw [h]; exact htrue, fun h => by rw [h]; exact hfalse⟩
  cases human_host with
  | true => rw [htrue, count_true_replicate_false]; omega
  | false =>
    rcases Nat.eq_zero_or_pos bots.length with hz | hpos
    · have : sortBots bots = [] := List.eq_nil_of_length_eq_zero (by rw [hlen, hz])
      show (hostFlagsGo (!false) (sortBots bots)).count true ≤ 1
      rw [this]
      decide
    · rw [hfalse (by omega)]
      rw [List.count_cons]
      rw [count_true_replicate_false]
      decide

/-- C7: the readiness wait happens only for bots spawning a separate
process: a dll bot performs no polling and no bot-process spawn at all,
while for a jar or exe bot whose environment never shows a free slot during
the whole attempt budget, the setup fails fatally with the readiness retry
message and the separate process is never spawned (no spawnBot event). -/
theorem c7_readiness_gate (env : PollEnv) :
    (∀ name p t, runBot env ⟨name, Binary.dll p⟩ t =
      ([Event.spawnEngine name], Except.ok (), t))
    ∧ (∀ bot t, spawnsSeparateProcess bot.binary = true →
      (∀ s, t ≤ s → s ≤ t + pollRetries → has_free_slot (env.table s) = false) →
      runBot env bot t =
        ([Event.spawnEngine bot.name], Except.error "Server process not ready",
          t + pollRetries + 1)) := by
  constructor
  · intro name p t
    rfl
  · intro bot t hsep hfree
    have hop : ∀ s, t ≤ s → s ≤ t + pollRetries →
        readinessOp env s = OperationResult.retry "Server process not ready" := by
      intro s h1 h2
      simp [readinessOp, hfree s h1 h2]
    have hret := retryFixed_all_retry (readinessOp env)
      "Server process not ready" pollRetries t hop
    rcases bot with ⟨name, bin⟩
    rcases bin with p | p | p
    · simp [spawnsSeparateProcess] at hsep
    · simp only [runBot, hret]
    · simp only [runBot, hret]

/-- Witness for C7: an environment that never produces a table, one exe bot
that times out without being spawned, and one dll bot with no polling. -/
theorem c7_readiness_gate_witness :
    runBot ⟨fun _ => none, fun _ => true, fun _ => true⟩
      ⟨"X", Binary.exe "x.exe"⟩ 0 =
      ([Event.spawnEngine "X"], Except.error "Server process not ready", 101)
    ∧ runBot ⟨fun _ => none, fun _ => true, fun _ => true⟩
      ⟨"D", Binary.dll "d.dll"⟩ 5 =
      ([Event.spawnEngine "D"], Except.ok (), 5) :=
  ⟨(c7_readiness_gate ⟨fun _ => none, fun _ => true, fun _ => true⟩).2
      ⟨"X", Binary.exe "x.exe"⟩ 0 rfl (fun s h1 h2 => rfl),
   (c7_readiness_gate ⟨fun _ => none, fun _ => true, fun _ => true⟩).1
      "D" "d.dll" 5⟩

/-- C3: every tick of the connection wait checks the engine process first
(fatal BWAPI process died), then the bot process (fatal Bot process died),
then the connected condition (success); and when the target condition never
holds during the whole budget while both processes keep running, the wait
fails with the distinct timeout-style retry message rather than succeeding
silently. -/
theorem c3_connection_wait (env : PollEnv) :
    (∀ t, env.engineRunning t = false →
      connectionOp env t = OperationResult.err "BWAPI process died")
    ∧ (∀ t, env.engineRunning t = true → env.botRunning t = false →
      connectionOp env t = OperationResult.err "Bot process died")
    ∧ (∀ t, env.engineRunning t = true → env.botRunning t = true →
      all_slots_filled (env.table t) = true →
      connectionOp env t = OperationResult.ok ())
    ∧ (∀ t r, (∀ s, t ≤ s → s ≤ t + r → env.engineRunning s = true ∧
        env.botRunning s = true ∧ all_slots_filled (env.table s) = false) →
      retryFixed (connectionOp env) t r =
        (Except.error "Bot client executable did not connect to BWAPI server (did you try to run a human hosted game without hosting it?)",
          t + r + 1)) := by
  refine ⟨fun t h => ?_, fun t h1 h2 => ?_, fun t h1 h2 h3 => ?_, fun t r h => ?_⟩
  · simp [connectionOp, h]
  · simp [connectionOp, h1, h2]
  · simp [connectionOp, h1, h2, h3]
  · exact retryFixed_all_retry _ _ r t fun s hs1 hs2 => by
      simp [connectionOp, (h s hs1 hs2).1, (h s hs1 hs2).2.1, (h s hs1 hs2).2.2]

/-- Witness for C3: the three per-tick outcomes at concrete environments and
an exhausted three-attempt run that ends in the timeout message. -/
theorem c3_connection_wait_witness :
    connectionOp ⟨fun _ => none, fun _ => false, fun _ => false⟩ 0 =
      OperationResult.err "BWAPI process died"
    ∧ connectionOp ⟨fun _ => none, fun _ => true, fun _ => false⟩ 0 =
      OperationResult.err "Bot process died"
    ∧ connectionOp ⟨fun _ => some ⟨[]⟩, fun _ => true, fun _ => true⟩ 0 =
      OperationResult.ok ()
    ∧ retryFixed (connectionOp ⟨fun _ => none, fun _ => true, fun _ => true⟩) 0 2 =
      (Except.error "Bot client executable did not connect to BWAPI server (did you try to run a human hosted game without hosting it?)",
        3) :=
  ⟨(c3_connection_wait ⟨fun _ => none, fun _ => false, fun _ => false⟩).1 0 rfl,
   (c3_connection_wait ⟨fun _ => none, fun _ => true, fun _ => false⟩).2.1 0 rfl rfl,
   (c3_connection_wait ⟨fun _ => some ⟨[]⟩, fun _ => true, fun _ => true⟩).2.2.1
     0 rfl rfl rfl,
   (c3_connection_wait ⟨fun _ => none, fun _ => true, fun _ => true⟩).2.2.2 0 2
     (fun s h1 h2 => ⟨rfl, rfl, rfl⟩)⟩

/-- Helper: swap_remove of a nonempty vector shortens it by one. -/
theorem length_swapRemove {α : Type} (l : List α) (i : Nat) (h : l ≠ []) :
    (swapRemove l i).length = l.length - 1 := by
  cases hl : l.getLast? with
  | none => exact absurd (List.getLast?_eq_none_iff.mp hl) h
  | some last => simp [swapRemove, hl]

/-- Helper: an element of the vector different from the occupant of the
removed index survives a swap_remove. -/
theorem mem_swapRemove {α : Type} (l : List α) (i : Nat) (hi : i < l.length)
    (x : α) (hx : x ∈ l) (hne : x ≠ l.get ⟨i, hi⟩) : x ∈ swapRemove l i := by
  have hnil : l ≠ [] := by
    intro h
    rw [h] at hi
    exact absurd hi (by simp)
  have hlast : l.getLast? = some (l.get ⟨l.length - 1, by omega⟩) := by
    rw [List.getLast?_eq_getElem?]
    exact List.getElem?_eq_getElem (by omega)
  rw [show swapRemove l i =
    (l.set i (l.get ⟨l.length - 1, by omega⟩)).dropLast by rw [swapRemove, hlast]]
  rcases List.mem_iff_getElem.mp hx with ⟨k, hk, hgetk⟩
  have hki : k ≠ i := by
    intro h
    subst h
    exact hne (by rw [← hgetk]; rfl)
  rcases Nat.lt_or_ge k (l.length - 1) with hklt | hkge
  · refine List.mem_iff_getElem.mpr ⟨k, ?_, ?_⟩
    · simpa [List.length_set] using hklt
    · rw [List.getElem_dropLast, List.getElem_set_ne (Ne.symm hki)]
      exact hgetk
  · have hkeq : k = l.length - 1 := by omega
    subst hkeq
    have hilt : i < l.length - 1 := by omega
    refine List.mem_iff_getElem.mpr ⟨i, ?_, ?_⟩
    · simpa [List.length_set] using hilt
    · rw [List.getElem_dropLast, List.getElem_set_self]
      rw [← hgetk]
      rfl

/-- Helper: positions strictly below the removed index are unchanged by a
swap_remove. -/
theorem getElem?_swapRemove_of_lt {α : Type} (l : List α) (i k : Nat)
    (hi : i < l.length) (hk : k < i) : (swapRemove l i)[k]? = l[k]? := by
  have hlast : l.getLast? = some (l.get ⟨l.length - 1, by omega⟩) := by
    rw [List.getLast?_eq_getElem?]
    exact List.getElem?_eq_getElem (by omega)
  rw [show swapRemove l i = (l.set i (l.get ⟨l.length - 1, by omega⟩)).dropLast from
    by rw [swapRemove, hlast]]
  have hk2 : k < ((l.set i (l.get ⟨l.length - 1, by omega⟩)).dropLast).length := by
    rw [List.length_dropLast, List.length_set]
    omega
  rw [List.getElem?_eq_getElem hk2, List.getElem?_eq_getElem (show k < l.length by omega)]
  rw [List.getElem_dropLast, List.getElem_set_ne (show i ≠ k by omega)]

/-- Helper: unfolding equation of sweepFrom when the index is out of
range. -/
theorem sweepFrom_succ_oob (exited : Nat → Bool) (insts : List BotProcess)
    (i : Nat) (h : insts[i]? = none) :
    sweepFrom exited insts (i + 1) = sweepFrom exited insts i := by
  simp [sweepFrom, h]

/-- Helper: unfolding equation of sweepFrom when the occupant of the index
is still running. -/
theorem sweepFrom_succ_keep (exited : Nat → Bool) (insts : List BotProcess)
    (i : Nat) (inst : BotProcess) (h : insts[i]? = some inst)
    (hx : exited inst.bwheadless = false) :
    sweepFrom exited insts (i + 1) = sweepFrom exited insts i := by
  simp [sweepFrom, h, hx]

/-- Helper: unfolding equation of sweepFrom when the occupant of the index
has exited: the bot is killed when present, the instance is removed with a
swap_remove, and the new remaining count is reported. -/
theorem sweepFrom_succ_remove (exited : Nat → Bool) (insts : List BotProcess)
    (i : Nat) (inst : BotProcess) (h : insts[i]? = some inst)
    (hx : exited inst.bwheadless = true) :
    sweepFrom exited insts (i + 1) =
      ((sweepFrom exited (swapRemove insts i) i).1,
        (if inst.bot then [SupEvent.killBot inst.bwheadless] else []) ++
          SupEvent.report (swapRemove insts i).length ::
            (sweepFrom exited (swapRemove insts i) i).2) := by
  simp [sweepFrom, h, hx]

/-- Helper: an instance whose host is still running is never removed by a
pass of the supervisor. -/
theorem sweepFrom_keeps_running (exited : Nat → Bool) : ∀ (i : Nat)
    (insts : List BotProcess) (inst : BotProcess), inst ∈ insts →
    exited inst.bwheadless = false → inst ∈ (sweepFrom exited insts i).1 := by
  intro i
  induction i with
  | zero =>
    intro insts inst hmem _
    exact hmem
  | succ i ih =>
    intro insts inst hmem hex
    cases hget : insts[i]? with
    | none =>
      rw [sweepFrom_succ_oob exited insts i hget]
      exact ih insts inst hmem hex
    | some inst2 =>
      cases hx : exited inst2.bwheadless with
      | false =>
        rw [sweepFrom_succ_keep exited insts i inst2 hget hx]
        exact ih insts inst hmem hex
      | true =>
        rw [sweepFrom_succ_remove exited insts i inst2 hget hx]
        rcases List.getElem?_eq_some.mp hget with ⟨hi, hgeti⟩
        have hne : inst ≠ insts.get ⟨i, hi⟩ := by
          rw [List.get_eq_getElem, hgeti]
          intro h
          rw [h] at hex
          rw [hex] at hx
          cases hx
        exact ih (swapRemove insts i) inst
          (mem_swapRemove insts i hi inst hmem hne) hex

/-- Helper: when the occupant of a visited position has exited and carries a
bot process, the pass emits the kill event for it. -/
theorem sweepFrom_kills (exited : Nat → Bool) : ∀ (i : Nat)
    (insts : List BotProcess) (inst : BotProcess) (k : Nat), k < i →
    insts[k]? = some inst → exited inst.bwheadless = true → inst.bot = true →
    SupEvent.killBot inst.bwheadless ∈ (sweepFrom exited insts i).2 := by
  intro i
  induction i with
  | zero =>
    intro insts inst k hk
    exact absurd hk (Nat.not_lt_zero k)
  | succ i ih =>
    intro insts inst k hk hgetk hex hbot
    rcases List.getElem?_eq_some.mp hgetk with ⟨hklen, hkval⟩
    cases hget : insts[i]? with
    | none =>
      have hlen : insts.length ≤ i := List.getElem?_eq_none_iff.mp hget
      rw [sweepFrom_succ_oob exited insts i hget]
      exact ih insts inst k (by omega) hgetk hex hbot
    | some inst2 =>
      rcases List.getElem?_eq_some.mp hget with ⟨hi, hival⟩
      by_cases hkeq : k = i
      · subst hkeq
        have hinst : inst2 = inst := by rw [← hival, hkval]
        subst hinst
        rw [sweepFrom_succ_remove exited insts k inst2 hget hex]
        simp [hbot]
      · have hk2 : k < i := by omega
        cases hx : exited inst2.bwheadless with
        | false =>
          rw [sweepFrom_succ_keep exited insts i inst2 hget hx]
          exact ih insts inst k hk2 hgetk hex hbot
        | true =>
          rw [sweepFrom_succ_remove exited insts i inst2 hget hx]
          have hgetk2 : (swapRemove insts i)[k]? = some inst := by
            rw [getElem?_swapRemove_of_lt insts i k hi hk2]
            exact hgetk
          have hmem := ih (swapRemove insts i) inst k hk2 hgetk2 hex hbot
          simp [hmem]

/-- Helper: a pass never grows the instance vector. -/
theorem sweepFrom_length_le (exited : Nat → Bool) : ∀ (i : Nat)
    (insts : List BotProcess),
    (sweepFrom exited insts i).1.length ≤ insts.length := by
  intro i
  induction i with
  | zero =>
    intro insts
    exact Nat.le_refl _
  | succ i ih =>
    intro insts
    cases hget : insts[i]? with
    | none =>
      rw [sweepFrom_succ_oob exited insts i hget]
      exact ih insts
    | some inst2 =>
      cases hx : exited inst2.bwheadless with
      | false =>
        rw [sweepFrom_succ_keep exited insts i inst2 hget hx]
        exact ih insts
      | true =>
        rw [sweepFrom_succ_remove exited insts i inst2 hget hx]
        rcases List.getElem?_eq_some.mp hget with ⟨hi, _⟩
        have hnil : insts ≠ [] := by
          intro h
          rw [h] at hi
          exact absurd hi (by simp)
        have hsw := length_swapRemove insts i hnil
        have hrec := ih (swapRemove insts i)
        show (sweepFrom exited (swapRemove insts i) i).1.length ≤ insts.length
        omega

/-- Helper: a pass reports the remaining count exactly once per removed
instance. -/
theorem sweepFrom_reports (exited : Nat → Bool) : ∀ (i : Nat)
    (insts : List BotProcess),
    (sweepFrom exited insts i).2.countP isReport =
      insts.length - (sweepFrom exited insts i).1.length := by
  intro i
  induction i with
  | zero =>
    intro insts
    simp [sweepFrom]
  | succ i ih =>
    intro insts
    cases hget : insts[i]? with
    | none =>
      rw [sweepFrom_succ_oob exited insts i hget]
      exact ih insts
    | some inst2 =>
      cases hx : exited inst2.bwheadless with
      | false =>
        rw [sweepFrom_succ_keep exited insts i inst2 hget hx]
        exact ih insts
      | true =>
        rw [sweepFrom_succ_remove exited insts i inst2 hget hx]
        rcases List.getElem?_eq_some.mp hget with ⟨hi, _⟩
        have hnil : insts ≠ [] := by
          intro h
          rw [h] at hi
          exact absurd hi (by simp)
        have hsw := length_swapRemove insts i hnil
        have hrec := ih (swapRemove insts i)
        have hle := sweepFrom_length_le exited i (swapRemove insts i)
        show ((if inst2.bot then [SupEvent.killBot inst2.bwheadless] else []) ++
          SupEvent.report (swapRemove insts i).length ::
            (sweepFrom exited (swapRemove insts i) i).2).countP isReport =
          insts.length - (sweepFrom exited (swapRemove insts i) i).1.length
        rw [List.countP_append, List.countP_cons]
        have hkill : (if inst2.bot then [SupEvent.killBot inst2.bwheadless]
            else []).countP isReport = 0 := by
          cases inst2.bot <;> simp [isReport, List.countP_cons]
        rw [hkill]
        simp only [isReport, if_pos]
        omega

/-- Helper: the supervisor loop never returns while some instance has a host
process that never exits. -/
theorem superRun_stuck (sched : Nat → Nat → Bool) (inst : BotProcess)
    (hex : ∀ t, sched t inst.bwheadless = false) : ∀ (fuel : Nat)
    (insts : List BotProcess), inst ∈ insts → ∀ t,
    superRun sched fuel insts t = none := by
  intro fuel
  induction fuel with
  | zero =>
    intro insts hmem t
    cases insts with
    | nil => exact absurd hmem (List.not_mem_nil inst)
    | cons a rest => rfl
  | succ fuel ih =>
    intro insts hmem t
    cases insts with
    | nil => exact absurd hmem (List.not_mem_nil inst)
    | cons a rest =>
      have hmem2 : inst ∈ (supervisorPass (sched t) (a :: rest)).1 :=
        sweepFrom_keeps_running (sched t) (a :: rest).length (a :: rest) inst
          hmem (hex t)
      have hnone := ih (supervisorPass (sched t) (a :: rest)).1 hmem2 (t + 1)
      show (match superRun sched fuel
          (supervisorPass (sched t) (a :: rest)).1 (t + 1) with
        | none => none
        | some evs2 => some ((supervisorPass (sched t) (a :: rest)).2 ++ evs2)) = none
      rw [hnone]

/-- C8: the supervisor removes an instance only after observing its host
process has exited (running instances always survive a pass); on every
removal it kills the paired bot process when present, and emits one
remaining-count report per removal; and the loop never returns while some
host process never exits, so it returns only once the instance set is
empty. -/
theorem c8_supervisor (exited : Nat → Bool) (insts : List BotProcess) :
    (∀ inst, inst ∈ insts → exited inst.bwheadless = false →
      inst ∈ (supervisorPass exited insts).1)
    ∧ (∀ inst, inst ∈ insts → exited inst.bwheadless = true → inst.bot = true →
      SupEvent.killBot inst.bwheadless ∈ (supervisorPass exited insts).2)
    ∧ ((supervisorPass exited insts).2.countP isReport =
      insts.length - (supervisorPass exited insts).1.length)
    ∧ (∀ (sched : Nat → Nat → Bool) (inst : BotProcess), inst ∈ insts →
      (∀ t, sched t inst.bwheadless = false) → ∀ fuel t,
      superRun sched fuel insts t = none) := by
  refine ⟨?_, ?_, ?_, ?_⟩
  · intro inst hmem hex
    exact sweepFrom_keeps_running exited insts.length insts inst hmem hex
  · intro inst hmem hex hbot
    rcases List.mem_iff_getElem.mp hmem with ⟨k, hk, hkval⟩
    exact sweepFrom_kills exited insts.length insts inst k hk
      (by rw [List.getElem?_eq_getElem hk, hkval]) hex hbot
  · exact sweepFrom_reports exited insts.length insts
  · intro sched inst hmem hx fuel t
    exact superRun_stuck sched inst hx fuel insts hmem t

/-- Witness for C8: two instances; the one whose host exited and has a bot
child produces a kill event and disappears; the surviving one stays; a run
under a never-exiting schedule does not terminate within its fuel. -/
theorem c8_supervisor_witness :
    (⟨1, false⟩ : BotProcess) ∈
      (supervisorPass (fun n => n == 2) [⟨1, false⟩, ⟨2, true⟩]).1
    ∧ SupEvent.killBot 2 ∈
      (supervisorPass (fun n => n == 2) [⟨1, false⟩, ⟨2, true⟩]).2
    ∧ superRun (fun _ _ => false) 3 [⟨1, false⟩, ⟨2, true⟩] 0 = none :=
  ⟨(c8_supervisor (fun n => n == 2) [⟨1, false⟩, ⟨2, true⟩]).1 ⟨1, false⟩
      (by decide) rfl,
   (c8_supervisor (fun n => n == 2) [⟨1, false⟩, ⟨2, true⟩]).2.1 ⟨2, true⟩
      (by decide) rfl rfl,
   (c8_supervisor (fun n => n == 2) [⟨1, false⟩, ⟨2, true⟩]).2.2.2
      (fun _ _ => false) ⟨1, false⟩ (by decide) (fun t => rfl) 3 0⟩
/-- Witness for C9: a two-bot match without a human host gets exactly one
host flag, on the first bot of the iteration order. -/
theorem c9_single_host_witness :
    ((assignedHostFlags false
      [⟨"A", Binary.dll "a.dll"⟩, ⟨"B", Binary.exe "b.exe"⟩]).count true ≤ 1)
    ∧ assignedHostFlags false
      [⟨"A", Binary.dll "a.dll"⟩, ⟨"B", Binary.exe "b.exe"⟩] =
      true :: List.replicate 1 false :=
  ⟨(c9_single_host false
      [⟨"A", Binary.dll "a.dll"⟩, ⟨"B", Binary.exe "b.exe"⟩]).1,
   (c9_single_host false
      [⟨"A", Binary.dll "a.dll"⟩, ⟨"B", Binary.exe "b.exe"⟩]).2.2 rfl (by decide)⟩
